import Mathlib

/-!
# SocketMud server core (`src/src/server.cpp`)

A shallow embedding of `class Server`: the listening descriptor, the two
descriptor sets, the list of live sockets and the timestamp used by the
fixed-rate sleep.  System calls (`socket`, `bind`, `select`, `accept`,
`gettimeofday`, ...) and the `Socket` methods `Read`/`Flush` are inputs of the
operations: every operation takes the results of the calls it makes.

Two kinds of step of the code have no defined behaviour, and an operation
that reaches one of them ends in `Outcome.undefined`:

* a descriptor-set macro applied to a descriptor outside `[0, FD_SETSIZE)`
  (`Connect` and `Accept` do not test what `socket()` and `accept()` return
  against `FD_SETSIZE`);
* the increment of a list iterator whose node has been erased.
-/

namespace SocketMud

/-! ## Data model -/

/-- A `struct timeval`: seconds and microseconds. -/
structure Timeval where
  tv_sec : Int
  tv_usec : Int
deriving DecidableEq, Repr

/-- Modelled from the spec: class `Socket` (declared in a header that is not
part of the sources).  A `shared_ptr<Socket>` is represented by the address of
the object it points to, `ptr`, together with the descriptor the object was
constructed with, which `GetControl()` returns.  The results of `Read()` and
`Flush()` are supplied to the operations as functions of the socket. -/
structure Socket where
  ptr : Nat
  control : Int
deriving DecidableEq, Repr

/-- The constant `FD_SETSIZE`: the number of descriptors an `fd_set` has a
bit for. -/
def FD_SETSIZE : Nat := 1024

/-- An `fd_set`: one membership bit for each descriptor of `[0, FD_SETSIZE)`. -/
abbrev fd_set := Fin FD_SETSIZE → Bool

/-- The bit the macros address for descriptor `d`: there is one when
`0 <= d < FD_SETSIZE`; for any other `d` the macros act outside the set. -/
def fdIndex (d : Int) : Option (Fin FD_SETSIZE) :=
  if h : 0 ≤ d ∧ d < (FD_SETSIZE : Int) then some ⟨d.toNat, by omega⟩ else none

/-- The macro `FD_ZERO`: the empty set. -/
def FD_ZERO : fd_set := fun _ => false

/-- The macro `FD_SET(d, &s)`: the set with the bit of `d` set; `none` when
`d` has no bit in the set (the write lands outside it). -/
def FD_SET (d : Int) (s : fd_set) : Option fd_set :=
  (fdIndex d).map (fun i x => if x = i then true else s x)

/-- The macro `FD_CLR(d, &s)`: the set with the bit of `d` cleared; `none`
when `d` has no bit in the set. -/
def FD_CLR (d : Int) (s : fd_set) : Option fd_set :=
  (fdIndex d).map (fun i x => if x = i then false else s x)

/-- The macro `FD_ISSET(d, &s)`: the bit of `d`; `none` when `d` has no bit in
the set (the read is outside it). -/
def FD_ISSET (d : Int) (s : fd_set) : Option Bool :=
  (fdIndex d).map s

/-- The data members of `Server` as `server.cpp` uses them (the class is
declared in a header that is not part of the sources).  `my_addr`, on which
no decision of the code depends, is left out. -/
structure Server where
  control : Int
  fSet : fd_set
  rSet : fd_set
  socketList : List Socket
  lastSleep : Timeval

/-- The constructor `Server::Server()`; `now` is the reading `gettimeofday`
gives. -/
def Server.new (now : Timeval) : Server :=
  { control := -1, fSet := FD_ZERO, rSet := FD_ZERO, socketList := [], lastSleep := now }

/-- How an operation ends: it returns `value`, or it reaches a step without
defined behaviour (a descriptor-set macro outside the set, or the increment
of an invalidated iterator).  `server` is the server at the return, or at
that step; `calls` lists the sockets on which `Read` (or `Flush`) was called
up to there, in order. -/
inductive Outcome (α : Type) where
  | returned (value : α) (server : Server) (calls : List Socket)
  | undefined (server : Server) (calls : List Socket)

/-- The server at the return, or where the behaviour stops being defined. -/
def Outcome.server {α : Type} : Outcome α → Server
  | .returned _ s _ => s
  | .undefined s _ => s

/-- The `Read`/`Flush` calls made. -/
def Outcome.calls {α : Type} : Outcome α → List Socket
  | .returned _ _ c => c
  | .undefined _ c => c

/-- The returned value, when the operation returns. -/
def Outcome.value {α : Type} : Outcome α → Option α
  | .returned v _ _ => some v
  | .undefined _ _ => none

/-! ## Connect -/

/-- The return values of the four system calls `Connect` makes. -/
structure ConnectEnv where
  socketRes : Int
  setsockoptRes : Int
  bindRes : Int
  listenRes : Int

/-- The method `Server::Connect` (lines 47-75).  `control` is assigned before
the test of line 50; `FD_SET(control, &fSet)` of line 59 comes before `bind`
and `listen`. -/
def Connect (env : ConnectEnv) (s : Server) : Outcome Bool :=
  let s1 := { s with control := env.socketRes }
  if env.socketRes == -1 then .returned false s1 []
  else if env.setsockoptRes == -1 then .returned false s1 []
  else
    match FD_SET s1.control s1.fSet with
    | none => .undefined s1 []
    | some f =>
      let s2 := { s1 with fSet := f }
      if env.bindRes == -1 then .returned false s2 []
      else if env.listenRes == -1 then .returned false s2 []
      else .returned true s2 []

/-! ## CloseSocket and Accept -/

/-- The member `std::list::remove(value)`: erases every element that compares
equal to `value`; two `shared_ptr`s are equal when they point to the same
object. -/
def listRemove (l : List Socket) (value : Socket) : List Socket :=
  l.filter (fun x => x.ptr != value.ptr)

/-- The method `Server::CloseSocket` (lines 158-165): the removal from the
list, then `FD_CLR`. -/
def CloseSocket (s : Server) (socket : Socket) : Outcome Unit :=
  let s1 := { s with socketList := listRemove s.socketList socket }
  match FD_CLR socket.control s1.fSet with
  | none => .undefined s1 []
  | some f => .returned () { s1 with fSet := f } []

/-- What `Accept` obtains from outside: the return value of `accept()` and the
address of the object `make_shared<Socket>` allocates. -/
structure AcceptEnv where
  desc : Int
  ptr : Nat

/-- The method `Server::Accept` (lines 167-191): the test of the listener
descriptor, `accept()`, `push_back`, then `FD_SET`. -/
def Accept (env : AcceptEnv) (s : Server) : Outcome Unit :=
  match FD_ISSET s.control s.rSet with
  | none => .undefined s []
  | some false => .returned () s []
  | some true =>
    if env.desc == -1 then .returned () s []
    else
      let s1 := { s with socketList := s.socketList ++ [⟨env.ptr, env.desc⟩] }
      match FD_SET env.desc s1.fSet with
      | none => .undefined s1 []
      | some f => .returned () { s1 with fSet := f } []

/-! ## The two loops over `socketList`

`for (auto sock: socketList) body` stands for a loop over a hidden iterator:
`sock` is a copy of the element the iterator designates, and the iterator is
incremented after each body.  The bodies change `socketList` only through
`CloseSocket(sock)`, whose `socketList.remove(sock)` erases every node that
holds `sock`, the node the iterator designates among them.  `std::list`
invalidates the iterators to erased elements, and the increment that follows
acts on such an iterator: the behaviour of the program is undefined from
there on.  An execution that reaches this point ends in `Outcome.undefined`,
which records the server and the calls made up to there.  As long as no body
evicts, the list is the one the loop started with, and the nodes still to be
visited are the tail of that list. -/

/-- The read loop of `PollSockets` (lines 91-100), from the node holding the
head of the first argument onwards: a connection whose descriptor is in
`rSet` is read; when `Read` fails, `CloseSocket` erases the current node and
the loop goes on to increment its invalidated iterator. -/
def readLoop (Read : Socket → Bool) : List Socket → Server → List Socket → Outcome Unit
  | [], s, calls => .returned () s calls
  | sock :: rest, s, calls =>
    match FD_ISSET sock.control s.rSet with
    | none => .undefined s calls
    | some true =>
      if Read sock == false then
        .undefined (CloseSocket s sock).server (calls ++ [sock])
      else readLoop Read rest s (calls ++ [sock])
    | some false => readLoop Read rest s calls

/-- The result of `select(FD_SETSIZE, &rSet, NULL, NULL, &tv)`: its return
value and, for a successful call, which descriptors are readable.  A failed
call leaves the set as it was; a successful one keeps the members that are
readable. -/
structure SelectEnv where
  ret : Int
  ready : Int → Bool

/-- Lines 80-84 of `PollSockets` when `select` succeeds: `rSet` is the copy of
`fSet` in which `select`, which examines the descriptors below `FD_SETSIZE`,
has kept the readable ones. -/
def selectReady (sel : SelectEnv) (s : Server) : Server :=
  { s with rSet := fun i => s.fSet i && sel.ready (i.val : Int) }

/-- The method `Server::PollSockets` (lines 77-103). -/
def PollSockets (sel : SelectEnv) (acc : AcceptEnv) (Read : Socket → Bool) (s : Server) :
    Outcome Bool :=
  if sel.ret < 0 then .returned false { s with rSet := s.fSet } []
  else
    match Accept acc (selectReady sel s) with
    | .undefined s3 _ => .undefined s3 []
    | .returned _ s3 _ =>
      match readLoop Read s3.socketList s3 [] with
      | .returned _ s4 calls => .returned true s4 calls
      | .undefined s4 calls => .undefined s4 calls

/-- The loop of `FlushSockets` (lines 108-113), from the node holding the head
of the first argument onwards: every connection is flushed; when `Flush`
fails, `CloseSocket` erases the current node and the loop goes on to
increment its invalidated iterator. -/
def flushLoop (Flush : Socket → Bool) : List Socket → Server → List Socket → Outcome Unit
  | [], s, calls => .returned () s calls
  | sock :: rest, s, calls =>
    if !Flush sock then
      .undefined (CloseSocket s sock).server (calls ++ [sock])
    else flushLoop Flush rest s (calls ++ [sock])

/-- The method `Server::FlushSockets` (lines 105-114). -/
def FlushSockets (Flush : Socket → Bool) (s : Server) : Outcome Unit :=
  flushLoop Flush s.socketList s []

/-! ## Sleep -/

/-- The least value of `int`. -/
def INT_MIN : Int := -2147483648

/-- The greatest value of `int`. -/
def INT_MAX : Int := 2147483647

/-- The value of type `int` congruent to `x` modulo `2^32`: the result of a
conversion to `int` and of `int` arithmetic on a machine with two-complement integers. -/
def wrapInt (x : Int) : Int := (x + 2147483648) % 4294967296 - 2147483648

/-- The loop `while (usecs < 0)` (lines 132-136).  The addition cannot leave
the range of `int`, the subtraction can. -/
def borrowLoop (usecs secs : Int) : Int × Int :=
  if usecs < 0 then borrowLoop (usecs + 1000000) (wrapInt (secs - 1))
  else (usecs, secs)
termination_by (-usecs).toNat
decreasing_by omega

/-- The loop `while (usecs >= 1000000)` (lines 137-141).  The subtraction
cannot leave the range of `int`, the addition can. -/
def carryLoop (usecs secs : Int) : Int × Int :=
  if usecs ≥ 1000000 then carryLoop (usecs - 1000000) (wrapInt (secs + 1))
  else (usecs, secs)
termination_by usecs.toNat
decreasing_by omega

/-- Lines 129-141 of `Sleep`: the pair `(usecs, secs)` after the two loops,
from the recorded `lastSleep`, the clock reading `newTime` and `pps > 0`. -/
def sleepAmount (pps : Int) (lastSleep newTime : Timeval) : Int × Int :=
  let usecs := wrapInt (wrapInt (lastSleep.tv_usec - newTime.tv_usec) + Int.tdiv 1000000 pps)
  let secs := wrapInt (lastSleep.tv_sec - newTime.tv_sec)
  let b := borrowLoop usecs secs
  carryLoop b.1 b.2

/-- The method `Server::Sleep` (lines 120-156).  `newTime` and `afterTime` are the
readings of the first and the second `gettimeofday`.  The second component is
the `timeval` handed to the sleeping `select`, or `none` when that call is
not made. -/
def Sleep (pps : Int) (newTime afterTime : Timeval) (s : Server) : Server × Option Timeval :=
  if pps ≤ 0 then (s, none)
  else
    let a := sleepAmount pps s.lastSleep newTime
    let usecs := a.1
    let secs := a.2
    let slept : Option Timeval :=
      if secs > 0 || (secs == 0 && usecs > 0) then some { tv_sec := secs, tv_usec := usecs }
      else none
    ({ s with lastSleep := afterTime }, slept)


/-! ## Vocabulary of the properties -/

/-- An integer is a value of type `int`. -/
def fitsInt (x : Int) : Prop := INT_MIN ≤ x ∧ x ≤ INT_MAX

instance (x : Int) : Decidable (fitsInt x) := by unfold fitsInt; infer_instance

/-- The time from `lastSleep` to `newTime`, in microseconds. -/
def elapsed (lastSleep newTime : Timeval) : Int :=
  (newTime.tv_sec - lastSleep.tv_sec) * 1000000 + (newTime.tv_usec - lastSleep.tv_usec)

/-- What the specification says of the sleep `Sleep` performs for `pps > 0`:
the pair `(secs, usecs)` it computes has `usecs` in `[0, 1000000)`, stands for
`interval - elapsed` microseconds, and is slept for exactly when it is
positive. -/
def SleepsForRemainder (pps : Int) (newTime afterTime : Timeval) (s : Server) : Prop :=
  let usecs := (sleepAmount pps s.lastSleep newTime).1
  let secs := (sleepAmount pps s.lastSleep newTime).2
  (0 ≤ usecs ∧ usecs < 1000000) ∧
  secs * 1000000 + usecs = 1000000 / pps - elapsed s.lastSleep newTime ∧
  (Sleep pps newTime afterTime s).2 =
    if 0 < 1000000 / pps - elapsed s.lastSleep newTime
    then some { tv_sec := secs, tv_usec := usecs } else none

/-- The descriptor `d` has a bit in an `fd_set`. -/
def InRange (d : Int) : Prop := 0 ≤ d ∧ d < (FD_SETSIZE : Int)

instance (d : Int) : Decidable (InRange d) := by unfold InRange; infer_instance

/-- The listener descriptors in `fSet` after a `Connect` call, when `ls` lists
those of the calls before: `Connect` registers the descriptor `socket()`
returns unless `socket()` or `setsockopt()` fails. -/
def registered (env : ConnectEnv) (ls : List Int) : List Int :=
  if env.socketRes == -1 || env.setsockoptRes == -1 then ls else env.socketRes :: ls

/-- The descriptor `d` is in use neither as a listener descriptor of `ls` nor
by a live connection of `s`. -/
def FreshDesc (ls : List Int) (s : Server) (d : Int) : Prop :=
  d ∉ ls ∧ ∀ sock ∈ s.socketList, sock.control ≠ d

/-- What `accept()` and `make_shared` may give in state `s`: `accept()` fails,
or it returns a descriptor of `[0, FD_SETSIZE)` that is not in use and the new
`Socket` object is at an address where no live `Socket` object is. -/
def FreshAccept (ls : List Int) (s : Server) (acc : AcceptEnv) : Prop :=
  acc.desc = -1 ∨
    (InRange acc.desc ∧ FreshDesc ls s acc.desc ∧ ∀ sock ∈ s.socketList, sock.ptr ≠ acc.ptr)

/-- The states of a `Server` constructed and then driven by `Connect`,
`PollSockets`, `FlushSockets` and `Sleep`, with the listener descriptors the
`Connect` calls have registered in `fSet`.  The descriptors `socket()` and
`accept()` return are in `[0, FD_SETSIZE)`, and those of `accept()` are not in
use.  For a call that does not return the state is the one where it stops
having a defined behaviour (for an eviction: right after it). -/
inductive Reach : List Int → Server → Prop where
  | init (now : Timeval) : Reach [] (Server.new now)
  | connect {ls : List Int} {s : Server} (env : ConnectEnv) :
      Reach ls s → (env.socketRes = -1 ∨ InRange env.socketRes) →
      Reach (registered env ls) (Connect env s).server
  | poll {ls : List Int} {s : Server} (sel : SelectEnv) (acc : AcceptEnv)
      (Read : Socket → Bool) :
      Reach ls s → FreshAccept ls s acc → Reach ls (PollSockets sel acc Read s).server
  | flush {ls : List Int} {s : Server} (Flush : Socket → Bool) :
      Reach ls s → Reach ls (FlushSockets Flush s).server
  | sleep {ls : List Int} {s : Server} (pps : Int) (newTime afterTime : Timeval) :
      Reach ls s → Reach ls (Sleep pps newTime afterTime s).1

/-- The lockstep of `socketList` and `fSet`, with the listeners `ls` set
apart, and the distinctness of the live descriptors and objects. -/
structure Lockstep (ls : List Int) (s : Server) : Prop where
  live_in_fSet : ∀ sock ∈ s.socketList, FD_ISSET sock.control s.fSet = some true
  fSet_known : ∀ d, FD_ISSET d s.fSet = some true →
    d ∈ ls ∨ ∃ sock ∈ s.socketList, sock.control = d
  desc_nodup : (s.socketList.map Socket.control).Nodup
  ptr_nodup : (s.socketList.map Socket.ptr).Nodup

/-! ## Example states -/

/-- A server listening on descriptor 3. -/
def listening : Server :=
  (Connect ⟨3, 0, 0, 0⟩ (Server.new ⟨0, 0⟩)).server

/-- The listening server after a `PollSockets` call that accepted a
connection on descriptor 4 (object at address 100). -/
def oneClient : Server :=
  (PollSockets ⟨1, fun _ => true⟩ ⟨4, 100⟩ (fun _ => true) listening).server

/-- The server after a further `PollSockets` call that accepted a second
connection on descriptor 5 (object at address 200). -/
def twoClients : Server :=
  (PollSockets ⟨1, fun _ => true⟩ ⟨5, 200⟩ (fun _ => true) oneClient).server

/-! ## Facts about the sleep computation -/

theorem wrapInt_of_fits {x : Int} (h : fitsInt x) : wrapInt x = x := by
  unfold fitsInt INT_MIN INT_MAX at h
  unfold wrapInt
  omega

theorem borrowLoop_of_nonneg {usecs : Int} (secs : Int) (h : 0 ≤ usecs) :
    borrowLoop usecs secs = (usecs, secs) := by
  rw [borrowLoop]
  simp [not_lt.mpr h]

theorem borrowLoop_once {usecs : Int} (secs : Int) (h : usecs < 0) (h2 : -1000000 ≤ usecs) :
    borrowLoop usecs secs = (usecs + 1000000, wrapInt (secs - 1)) := by
  rw [borrowLoop]
  simp only [h, if_true]
  exact borrowLoop_of_nonneg _ (by omega)

theorem carryLoop_of_lt {usecs : Int} (secs : Int) (h : usecs < 1000000) :
    carryLoop usecs secs = (usecs, secs) := by
  rw [carryLoop]
  simp [not_le.mpr h]

theorem carryLoop_once {usecs : Int} (secs : Int) (h : 1000000 ≤ usecs) (h2 : usecs < 2000000) :
    carryLoop usecs secs = (usecs - 1000000, wrapInt (secs + 1)) := by
  rw [carryLoop]
  simp only [ge_iff_le, h, if_true]
  exact carryLoop_of_lt _ (by omega)

theorem interval_bounds {pps : Int} (h : 0 < pps) :
    Int.tdiv 1000000 pps = 1000000 / pps ∧ 0 ≤ (1000000 : Int) / pps ∧ (1000000 : Int) / pps ≤ 1000000 := by
  refine ⟨?_, ?_, ?_⟩
  · exact Int.tdiv_eq_ediv (by norm_num) (le_of_lt h)
  · exact Int.ediv_nonneg (by norm_num) (le_of_lt h)
  · exact Int.ediv_le_self _ (by norm_num)

/-- The pair `sleepAmount` computes when the whole seconds of
`interval - elapsed` are representable. -/
theorem sleepAmount_eq (pps : Int) (lastSleep newTime : Timeval) (hpps : 0 < pps)
    (hl : 0 ≤ lastSleep.tv_usec ∧ lastSleep.tv_usec < 1000000)
    (hn : 0 ≤ newTime.tv_usec ∧ newTime.tv_usec < 1000000)
    (hnorm : fitsInt ((1000000 / pps - elapsed lastSleep newTime) / 1000000)) :
    sleepAmount pps lastSleep newTime =
      ((1000000 / pps - elapsed lastSleep newTime) % 1000000,
       (1000000 / pps - elapsed lastSleep newTime) / 1000000) := by
  obtain ⟨hdiv, hi0, hi1⟩ := interval_bounds hpps
  unfold sleepAmount
  rw [hdiv]
  generalize (1000000 : Int) / pps = I at *
  unfold elapsed at *
  obtain ⟨l1, l2⟩ := hl
  obtain ⟨n1, n2⟩ := hn
  have hu : wrapInt (lastSleep.tv_usec - newTime.tv_usec) = lastSleep.tv_usec - newTime.tv_usec :=
    wrapInt_of_fits (by unfold fitsInt INT_MIN INT_MAX; omega)
  have hu2 : wrapInt (lastSleep.tv_usec - newTime.tv_usec + I) = lastSleep.tv_usec - newTime.tv_usec + I :=
    wrapInt_of_fits (by unfold fitsInt INT_MIN INT_MAX; omega)
  simp only [hu, hu2]
  unfold fitsInt INT_MIN INT_MAX at hnorm
  by_cases c1 : lastSleep.tv_usec - newTime.tv_usec + I < 0
  · rw [borrowLoop_once _ c1 (by omega)]
    simp only []
    rw [carryLoop_of_lt _ (by omega)]
    unfold wrapInt
    refine Prod.ext ?_ ?_ <;> simp only [] <;> omega
  · rw [borrowLoop_of_nonneg _ (by omega)]
    simp only []
    by_cases c2 : lastSleep.tv_usec - newTime.tv_usec + I < 1000000
    · rw [carryLoop_of_lt _ c2]
      unfold wrapInt
      refine Prod.ext ?_ ?_ <;> simp only [] <;> omega
    · rw [carryLoop_once _ (by omega) (by omega)]
      unfold wrapInt
      refine Prod.ext ?_ ?_ <;> simp only [] <;> omega

/-! ## Facts about the descriptor sets -/

theorem fdIndex_eq_some {d : Int} {i : Fin FD_SETSIZE} (h : fdIndex d = some i) :
    InRange d ∧ (i.val : Int) = d := by
  unfold fdIndex at h
  split at h
  · rename_i hr
    simp only [Option.some.injEq] at h
    refine ⟨hr, ?_⟩
    rw [← h]
    simp only [Int.toNat_of_nonneg hr.1]
  · cases h

theorem fdIndex_of_inRange {d : Int} (h : InRange d) : ∃ i, fdIndex d = some i := by
  unfold fdIndex
  unfold InRange at h
  simp [h]

theorem fdIndex_of_not_inRange {d : Int} (h : ¬ InRange d) : fdIndex d = none := by
  unfold fdIndex
  unfold InRange at h
  simp [h]

theorem fdIndex_inj {x d : Int} {i : Fin FD_SETSIZE} (hx : fdIndex x = some i)
    (hd : fdIndex d = some i) : x = d := by
  rw [← (fdIndex_eq_some hx).2, ← (fdIndex_eq_some hd).2]

theorem FD_ISSET_inRange {d : Int} {s : fd_set} {b : Bool} (h : FD_ISSET d s = some b) :
    InRange d := by
  unfold FD_ISSET at h
  cases hi : fdIndex d with
  | none => rw [hi] at h; cases h
  | some i => exact (fdIndex_eq_some hi).1

theorem FD_ISSET_of_inRange {d : Int} (s : fd_set) (h : InRange d) :
    ∃ b, FD_ISSET d s = some b := by
  obtain ⟨i, hi⟩ := fdIndex_of_inRange h
  exact ⟨s i, by simp [FD_ISSET, hi]⟩

theorem FD_SET_of_inRange {d : Int} (s : fd_set) (h : InRange d) :
    ∃ f, FD_SET d s = some f := by
  obtain ⟨i, hi⟩ := fdIndex_of_inRange h
  unfold FD_SET
  rw [hi]
  exact ⟨_, rfl⟩

theorem FD_CLR_of_inRange {d : Int} (s : fd_set) (h : InRange d) :
    ∃ f, FD_CLR d s = some f := by
  obtain ⟨i, hi⟩ := fdIndex_of_inRange h
  unfold FD_CLR
  rw [hi]
  exact ⟨_, rfl⟩

theorem FD_SET_of_not_inRange {d : Int} (s : fd_set) (h : ¬ InRange d) :
    FD_SET d s = none := by
  simp [FD_SET, fdIndex_of_not_inRange h]

theorem FD_ISSET_of_not_inRange {d : Int} (s : fd_set) (h : ¬ InRange d) :
    FD_ISSET d s = none := by
  simp [FD_ISSET, fdIndex_of_not_inRange h]

theorem FD_ISSET_FD_ZERO (d : Int) : FD_ISSET d FD_ZERO ≠ some true := by
  unfold FD_ISSET FD_ZERO
  cases fdIndex d <;> simp

/-- The members after `FD_SET(d, &s)`: `d` and the members before. -/
theorem mem_FD_SET {d : Int} {s f : fd_set} (h : FD_SET d s = some f) (x : Int) :
    FD_ISSET x f = some true ↔ x = d ∨ FD_ISSET x s = some true := by
  unfold FD_SET at h
  cases hd : fdIndex d with
  | none => rw [hd] at h; cases h
  | some i =>
    rw [hd] at h
    simp only [Option.map_some', Option.some.injEq] at h
    subst h
    unfold FD_ISSET
    cases hx : fdIndex x with
    | none =>
      simp only [Option.map_none', false_iff, not_or, reduceCtorEq, not_false_eq_true, and_true]
      intro hxd
      rw [hxd, hd] at hx
      cases hx
    | some j =>
      simp only [Option.map_some', Option.some.injEq]
      by_cases hji : j = i
      · simp only [hji, if_true, true_iff]
        exact Or.inl (fdIndex_inj (hji ▸ hx) hd)
      · simp only [hji, if_false]
        constructor
        · exact Or.inr
        · rintro (hxd | h2)
          · rw [hxd, hd] at hx
            exact absurd (Option.some.inj hx).symm hji
          · exact h2

/-- The members after `FD_CLR(d, &s)`: the members before other than `d`. -/
theorem mem_FD_CLR {d : Int} {s f : fd_set} (h : FD_CLR d s = some f) (x : Int) :
    FD_ISSET x f = some true ↔ x ≠ d ∧ FD_ISSET x s = some true := by
  unfold FD_CLR at h
  cases hd : fdIndex d with
  | none => rw [hd] at h; cases h
  | some i =>
    rw [hd] at h
    simp only [Option.map_some', Option.some.injEq] at h
    subst h
    unfold FD_ISSET
    cases hx : fdIndex x with
    | none => simp
    | some j =>
      simp only [Option.map_some', Option.some.injEq]
      by_cases hji : j = i
      · simp only [hji, if_true, Bool.false_eq_true, false_iff, not_and]
        intro hne
        exact absurd (fdIndex_inj (hji ▸ hx) hd) hne
      · simp only [hji, if_false, iff_and_self]
        intro _ hxd
        rw [hxd, hd] at hx
        exact hji (Option.some.inj hx).symm

/-! ## Facts about `CloseSocket` and the loops -/

theorem CloseSocket_of_inRange (s : Server) (sock : Socket) (h : InRange sock.control) :
    ∃ f, FD_CLR sock.control s.fSet = some f ∧
      CloseSocket s sock =
        .returned () { s with socketList := listRemove s.socketList sock, fSet := f } [] := by
  obtain ⟨f, hf⟩ := FD_CLR_of_inRange s.fSet h
  refine ⟨f, hf, ?_⟩
  unfold CloseSocket
  simp only [hf]

theorem CloseSocket_socketList (s : Server) (sock : Socket) :
    (CloseSocket s sock).server.socketList = listRemove s.socketList sock := by
  unfold CloseSocket
  simp only []
  cases FD_CLR sock.control s.fSet <;> rfl

theorem CloseSocket_control (s : Server) (sock : Socket) :
    (CloseSocket s sock).server.control = s.control := by
  unfold CloseSocket
  simp only []
  cases FD_CLR sock.control s.fSet <;> rfl

theorem readLoop_server (Read : Socket → Bool) (l : List Socket) (s : Server)
    (c : List Socket) :
    (readLoop Read l s c).server = s ∨
    ∃ sock ∈ l, (readLoop Read l s c).server = (CloseSocket s sock).server := by
  induction l generalizing c with
  | nil => exact Or.inl rfl
  | cons x rest ih =>
    cases h1 : FD_ISSET x.control s.rSet with
    | none => exact Or.inl (by simp [readLoop, h1, Outcome.server])
    | some b =>
      cases b with
      | false =>
        rcases ih c with h | ⟨sock, hm, h⟩
        · exact Or.inl (by simp [readLoop, h1, h])
        · exact Or.inr ⟨sock, List.mem_cons_of_mem _ hm, by simp [readLoop, h1, h]⟩
      | true =>
        by_cases h2 : Read x = false
        · exact Or.inr ⟨x, List.mem_cons_self _ _, by simp [readLoop, h1, h2, Outcome.server]⟩
        · rcases ih (c ++ [x]) with h | ⟨sock, hm, h⟩
          · exact Or.inl (by simp [readLoop, h1, h2, h])
          · exact Or.inr ⟨sock, List.mem_cons_of_mem _ hm, by simp [readLoop, h1, h2, h]⟩

/-- A read loop that meets a connection whose descriptor is in `rSet` and
whose `Read` fails does not return. -/
theorem readLoop_of_failure (Read : Socket → Bool) (l : List Socket) (s : Server)
    (c : List Socket)
    (hfail : ∃ x ∈ l, FD_ISSET x.control s.rSet = some true ∧ Read x = false) :
    (readLoop Read l s c).value = none := by
  induction l generalizing c with
  | nil => simp at hfail
  | cons y rest ih =>
    cases h1 : FD_ISSET y.control s.rSet with
    | none => simp [readLoop, h1, Outcome.value]
    | some b =>
      cases b with
      | false =>
        obtain ⟨x, hx, hxr, hxf⟩ := hfail
        have hx2 : x ∈ rest := by
          rcases List.mem_cons.mp hx with h | h
          · rw [h, h1] at hxr; cases hxr
          · exact h
        simp [readLoop, h1, ih c ⟨x, hx2, hxr, hxf⟩]
      | true =>
        by_cases h2 : Read y = false
        · simp [readLoop, h1, h2, Outcome.value]
        · obtain ⟨x, hx, hxr, hxf⟩ := hfail
          have hx2 : x ∈ rest := by
            rcases List.mem_cons.mp hx with h | h
            · rw [h] at hxf; exact absurd hxf h2
            · exact h
          simp [readLoop, h1, h2, ih (c ++ [y]) ⟨x, hx2, hxr, hxf⟩]

theorem flushLoop_server (Flush : Socket → Bool) (l : List Socket) (s : Server)
    (c : List Socket) :
    (flushLoop Flush l s c).server = s ∨
    ∃ sock ∈ l, (flushLoop Flush l s c).server = (CloseSocket s sock).server := by
  induction l generalizing c with
  | nil => exact Or.inl rfl
  | cons x rest ih =>
    by_cases h1 : Flush x = true
    · rcases ih (c ++ [x]) with h | ⟨sock, hm, h⟩
      · exact Or.inl (by simp [flushLoop, h1, h])
      · exact Or.inr ⟨sock, List.mem_cons_of_mem _ hm, by simp [flushLoop, h1, h]⟩
    · exact Or.inr ⟨x, List.mem_cons_self _ _, by simp [flushLoop, h1, Outcome.server]⟩

/-- A flush loop in which no `Flush` fails returns, with the server as it was
and one call per element, in order. -/
theorem flushLoop_of_all_true (Flush : Socket → Bool) (l : List Socket) (s : Server)
    (c : List Socket) (hall : ∀ x ∈ l, Flush x = true) :
    flushLoop Flush l s c = .returned () s (c ++ l) := by
  induction l generalizing c with
  | nil => simp [flushLoop]
  | cons y rest ih =>
    have hy : Flush y = true := hall y (List.mem_cons_self _ _)
    simp [flushLoop, hy, ih (c ++ [y]) (fun x hx => hall x (List.mem_cons_of_mem _ hx))]

/-- A flush loop that meets a failing `Flush` does not return: it stops at
the first such element, right after evicting it. -/
theorem flushLoop_of_failure (Flush : Socket → Bool) (l : List Socket) (s : Server)
    (c : List Socket) (hfail : ∃ x ∈ l, Flush x = false) :
    (flushLoop Flush l s c).value = none := by
  induction l generalizing c with
  | nil => simp at hfail
  | cons y rest ih =>
    by_cases hy : Flush y = true
    · obtain ⟨x, hx, hxf⟩ := hfail
      have hx2 : x ∈ rest := by
        rcases List.mem_cons.mp hx with h | h
        · rw [h, hy] at hxf; cases hxf
        · exact h
      simp [flushLoop, hy, ih (c ++ [y]) ⟨x, hx2, hxf⟩]
    · simp [flushLoop, hy, Outcome.value]

/-- The server `FlushSockets` ends with: the one it started with, or that one
with one of its connections evicted. -/
theorem FlushSockets_server (Flush : Socket → Bool) (s : Server) :
    (FlushSockets Flush s).server = s ∨
    ∃ sock ∈ s.socketList, (FlushSockets Flush s).server = (CloseSocket s sock).server :=
  flushLoop_server Flush s.socketList s []

/-- The call `FlushSockets` returns exactly when no `Flush` fails; the server
is then as it was and `Flush` was called once per connection, in order. -/
theorem FlushSockets_returns_iff (Flush : Socket → Bool) (s : Server) :
    ((FlushSockets Flush s).value = some () ↔ ∀ x ∈ s.socketList, Flush x = true) ∧
    ((∀ x ∈ s.socketList, Flush x = true) →
      FlushSockets Flush s = .returned () s s.socketList) := by
  have h2 : (∀ x ∈ s.socketList, Flush x = true) →
      FlushSockets Flush s = .returned () s s.socketList := by
    intro hall
    unfold FlushSockets
    rw [flushLoop_of_all_true Flush _ s [] hall]
    simp
  refine ⟨⟨?_, fun hall => by rw [h2 hall]; rfl⟩, h2⟩
  intro hv
  by_contra hne
  simp only [not_forall, Bool.not_eq_true] at hne
  obtain ⟨x, hx, hf⟩ := hne
  have := flushLoop_of_failure Flush s.socketList s [] ⟨x, hx, hf⟩
  unfold FlushSockets at hv
  rw [this] at hv
  cases hv

/-! ## Facts about `Connect`, `Accept` and `PollSockets` -/

/-- The outcome of `Connect` when `socket()` or `setsockopt()` fails. -/
theorem Connect_when_failed (env : ConnectEnv) (s : Server)
    (h : env.socketRes = -1 ∨ env.setsockoptRes = -1) :
    Connect env s = .returned false { s with control := env.socketRes } [] := by
  unfold Connect
  by_cases h1 : env.socketRes = -1
  · simp [h1]
  · rcases h with h | h
    · exact absurd h h1
    · simp [h1, h]

/-- The outcome of `Connect` when `socket()` and `setsockopt()` succeed and
the descriptor is in `[0, FD_SETSIZE)`: the descriptor is put into `fSet`
and the flag tells whether `bind` and `listen` succeeded. -/
theorem Connect_when_registered (env : ConnectEnv) (s : Server)
    (h1 : env.socketRes ≠ -1) (h2 : env.setsockoptRes ≠ -1) (hr : InRange env.socketRes) :
    ∃ f, FD_SET env.socketRes s.fSet = some f ∧
      Connect env s =
        .returned (env.bindRes != -1 && env.listenRes != -1)
          { s with control := env.socketRes, fSet := f } [] := by
  obtain ⟨f, hf⟩ := FD_SET_of_inRange s.fSet hr
  refine ⟨f, hf, ?_⟩
  unfold Connect
  simp only [beq_iff_eq, h1, h2, if_false, hf]
  by_cases h3 : env.bindRes = -1
  · simp [h3]
  · by_cases h4 : env.listenRes = -1 <;> simp [h3, h4]

/-- The outcome of `Connect` when `socket()` and `setsockopt()` succeed and
the descriptor has no bit in `fSet`. -/
theorem Connect_when_out_of_range (env : ConnectEnv) (s : Server)
    (h1 : env.socketRes ≠ -1) (h2 : env.setsockoptRes ≠ -1) (hr : ¬ InRange env.socketRes) :
    Connect env s = .undefined { s with control := env.socketRes } [] := by
  unfold Connect
  simp only [beq_iff_eq, h1, h2, if_false, FD_SET_of_not_inRange s.fSet hr]

theorem Accept_control (acc : AcceptEnv) (s : Server) :
    (Accept acc s).server.control = s.control := by
  unfold Accept
  cases FD_ISSET s.control s.rSet with
  | none => rfl
  | some b =>
    cases b with
    | false => rfl
    | true =>
      simp only []
      split
      · rfl
      · cases FD_SET acc.desc s.fSet <;> rfl

theorem Accept_calls (acc : AcceptEnv) (s : Server) : (Accept acc s).calls = [] := by
  unfold Accept
  cases FD_ISSET s.control s.rSet with
  | none => rfl
  | some b =>
    cases b with
    | false => rfl
    | true =>
      simp only []
      split
      · rfl
      · cases FD_SET acc.desc s.fSet <;> rfl

/-- The outcome of `Accept` when it admits a connection whose descriptor is in
`[0, FD_SETSIZE)`. -/
theorem Accept_when_admitted (acc : AcceptEnv) (s : Server)
    (h1 : FD_ISSET s.control s.rSet = some true) (h2 : acc.desc ≠ -1)
    (hr : InRange acc.desc) :
    ∃ f, FD_SET acc.desc s.fSet = some f ∧
      Accept acc s =
        .returned () { s with socketList := s.socketList ++ [⟨acc.ptr, acc.desc⟩],
                              fSet := f } [] := by
  obtain ⟨f, hf⟩ := FD_SET_of_inRange s.fSet hr
  refine ⟨f, hf, ?_⟩
  unfold Accept
  simp [h1, h2, hf]

/-- The outcome of `Accept` when `accept()` returns a descriptor that has no
bit in `fSet`: the connection is in `socketList`, its descriptor is not in
`fSet`, and the call does not return. -/
theorem Accept_when_out_of_range (acc : AcceptEnv) (s : Server)
    (h1 : FD_ISSET s.control s.rSet = some true) (h2 : acc.desc ≠ -1)
    (hr : ¬ InRange acc.desc) :
    Accept acc s =
      .undefined { s with socketList := s.socketList ++ [⟨acc.ptr, acc.desc⟩] } [] := by
  unfold Accept
  simp [h1, h2, FD_SET_of_not_inRange s.fSet hr]

/-- The outcome of `Accept` when the listener descriptor is not in `rSet` or
`accept()` fails. -/
theorem Accept_when_refused (acc : AcceptEnv) (s : Server) (hc : InRange s.control)
    (h : FD_ISSET s.control s.rSet = some false ∨ acc.desc = -1) :
    Accept acc s = .returned () s [] := by
  obtain ⟨b, hb⟩ := FD_ISSET_of_inRange s.rSet hc
  unfold Accept
  cases b with
  | false => simp [hb]
  | true =>
    rcases h with h | h
    · rw [hb] at h; cases h
    · simp [hb, h]

/-- The server after `Accept`, in every case: as before, or with the new
connection appended and, when its descriptor has a bit, registered. -/
theorem Accept_server_cases (acc : AcceptEnv) (s : Server) :
    (Accept acc s).server = s ∨
    (acc.desc ≠ -1 ∧
      ((∃ f, FD_SET acc.desc s.fSet = some f ∧
          (Accept acc s).server =
            { s with socketList := s.socketList ++ [⟨acc.ptr, acc.desc⟩], fSet := f }) ∨
       (¬ InRange acc.desc ∧
          (Accept acc s).server =
            { s with socketList := s.socketList ++ [⟨acc.ptr, acc.desc⟩] }))) := by
  cases h1 : FD_ISSET s.control s.rSet with
  | none => exact Or.inl (by simp [Accept, h1, Outcome.server])
  | some b =>
    cases b with
    | false => exact Or.inl (by simp [Accept, h1, Outcome.server])
    | true =>
      by_cases h2 : acc.desc = -1
      · exact Or.inl (by simp [Accept, h1, h2, Outcome.server])
      · by_cases hr : InRange acc.desc
        · obtain ⟨f, hf, h3⟩ := Accept_when_admitted acc s h1 h2 hr
          exact Or.inr ⟨h2, Or.inl ⟨f, hf, by rw [h3]; rfl⟩⟩
        · exact Or.inr ⟨h2, Or.inr ⟨hr, by rw [Accept_when_out_of_range acc s h1 h2 hr]; rfl⟩⟩

theorem Accept_length (acc : AcceptEnv) (s : Server) :
    (Accept acc s).server.socketList.length ≤ s.socketList.length + 1 := by
  rcases Accept_server_cases acc s with h | ⟨_, ⟨f, _, h⟩ | ⟨_, h⟩⟩ <;> rw [h] <;> simp

theorem Accept_mem (acc : AcceptEnv) (s : Server) (x : Socket) (hx : x ∈ s.socketList) :
    x ∈ (Accept acc s).server.socketList := by
  rcases Accept_server_cases acc s with h | ⟨_, ⟨f, _, h⟩ | ⟨_, h⟩⟩ <;> rw [h] <;> simp [hx]

theorem PollSockets_when_accept_undefined (sel : SelectEnv) (acc : AcceptEnv)
    (Read : Socket → Bool) (s s3 : Server) (c : List Socket) (hsel : ¬ sel.ret < 0)
    (hA : Accept acc (selectReady sel s) = .undefined s3 c) :
    PollSockets sel acc Read s = .undefined s3 [] := by
  unfold PollSockets
  simp only [hsel, if_false, hA]

theorem PollSockets_when_accept_returned (sel : SelectEnv) (acc : AcceptEnv)
    (Read : Socket → Bool) (s s3 : Server) (c : List Socket) (v : Unit)
    (hsel : ¬ sel.ret < 0)
    (hA : Accept acc (selectReady sel s) = .returned v s3 c) :
    (PollSockets sel acc Read s).server = (readLoop Read s3.socketList s3 []).server ∧
    (PollSockets sel acc Read s).calls = (readLoop Read s3.socketList s3 []).calls ∧
    (PollSockets sel acc Read s).value =
      (readLoop Read s3.socketList s3 []).value.map (fun _ => true) := by
  unfold PollSockets
  simp only [hsel, if_false, hA]
  cases readLoop Read s3.socketList s3 [] <;>
    simp [Outcome.server, Outcome.calls, Outcome.value]

/-- The server `PollSockets` ends with: the one after `Accept`, or that one
with one of its connections evicted. -/
theorem PollSockets_server (sel : SelectEnv) (acc : AcceptEnv) (Read : Socket → Bool)
    (s : Server) :
    (PollSockets sel acc Read s).server = { s with rSet := s.fSet } ∨
    (PollSockets sel acc Read s).server = (Accept acc (selectReady sel s)).server ∨
    ∃ sock ∈ (Accept acc (selectReady sel s)).server.socketList,
      (PollSockets sel acc Read s).server =
        (CloseSocket (Accept acc (selectReady sel s)).server sock).server := by
  by_cases hsel : sel.ret < 0
  · simp [PollSockets, hsel, Outcome.server]
  · cases hA : Accept acc (selectReady sel s) with
    | undefined s3 c =>
      rw [PollSockets_when_accept_undefined sel acc Read s s3 c hsel hA]
      exact Or.inr (Or.inl rfl)
    | returned v s3 c =>
      rw [(PollSockets_when_accept_returned sel acc Read s s3 c v hsel hA).1]
      rcases readLoop_server Read s3.socketList s3 [] with h | ⟨sock, hm, h⟩
      · exact Or.inr (Or.inl (by rw [h]; rfl))
      · exact Or.inr (Or.inr ⟨sock, hm, by rw [h]; rfl⟩)

/-- A `PollSockets` whose `select` succeeds does not return when a connection
whose descriptor is in `rSet` fails to `Read`. -/
theorem PollSockets_of_failure (sel : SelectEnv) (acc : AcceptEnv) (Read : Socket → Bool)
    (s : Server) (hsel : ¬ sel.ret < 0)
    (hfail : ∃ x ∈ (Accept acc (selectReady sel s)).server.socketList,
      FD_ISSET x.control (Accept acc (selectReady sel s)).server.rSet = some true ∧
      Read x = false) :
    (PollSockets sel acc Read s).value = none := by
  cases hA : Accept acc (selectReady sel s) with
  | undefined s3 c =>
    rw [PollSockets_when_accept_undefined sel acc Read s s3 c hsel hA]
    rfl
  | returned v s3 c =>
    rw [hA] at hfail
    have hf : (readLoop Read s3.socketList s3 []).value = none :=
      readLoop_of_failure Read _ s3 [] hfail
    rw [(PollSockets_when_accept_returned sel acc Read s s3 c v hsel hA).2.2, hf]
    rfl

/-- A `PollSockets` whose `select` fails returns `false`; only `rSet`, the
copy of `fSet`, has changed, and no `Read` was called. -/
theorem PollSockets_of_select_failure (sel : SelectEnv) (acc : AcceptEnv)
    (Read : Socket → Bool) (s : Server) (hsel : sel.ret < 0) :
    PollSockets sel acc Read s = .returned false { s with rSet := s.fSet } [] := by
  simp [PollSockets, hsel]

/-! ## The lockstep of `socketList` and `fSet` -/

theorem lockstep_of_eq {ls : List Int} {s s2 : Server} (h : Lockstep ls s)
    (h1 : s2.socketList = s.socketList) (h2 : s2.fSet = s.fSet) : Lockstep ls s2 := by
  constructor
  · rw [h1, h2]; exact h.live_in_fSet
  · rw [h1, h2]; exact h.fSet_known
  · rw [h1]; exact h.desc_nodup
  · rw [h1]; exact h.ptr_nodup

theorem lockstep_new (now : Timeval) : Lockstep [] (Server.new now) := by
  constructor
  · intro sock hs
    cases hs
  · intro d hd
    exact absurd hd (FD_ISSET_FD_ZERO d)
  · exact List.nodup_nil
  · exact List.nodup_nil

theorem lockstep_connect {ls : List Int} {s : Server} (h : Lockstep ls s) (env : ConnectEnv)
    (hr : env.socketRes = -1 ∨ InRange env.socketRes) :
    Lockstep (registered env ls) (Connect env s).server := by
  unfold registered
  by_cases h1 : env.socketRes = -1 ∨ env.setsockoptRes = -1
  · rw [Connect_when_failed env s h1]
    have : (env.socketRes == -1 || env.setsockoptRes == -1) = true := by
      rcases h1 with h1 | h1 <;> simp [h1]
    simp only [this, if_true]
    exact lockstep_of_eq h rfl rfl
  · simp only [not_or] at h1
    have hin : InRange env.socketRes := hr.resolve_left h1.1
    obtain ⟨f, hf, hc⟩ := Connect_when_registered env s h1.1 h1.2 hin
    rw [hc]
    have : (env.socketRes == -1 || env.setsockoptRes == -1) = false := by
      simp [h1.1, h1.2]
    simp only [this, Bool.false_eq_true, if_false]
    constructor
    · intro sock hs
      exact (mem_FD_SET hf _).mpr (Or.inr (h.live_in_fSet sock hs))
    · intro d hd
      rcases (mem_FD_SET hf d).mp hd with h3 | h3
      · exact Or.inl (by simp [h3])
      · rcases h.fSet_known d h3 with h4 | h4
        · exact Or.inl (List.mem_cons_of_mem _ h4)
        · exact Or.inr h4
    · exact h.desc_nodup
    · exact h.ptr_nodup

theorem lockstep_accept {ls : List Int} {s : Server} (h : Lockstep ls s) (acc : AcceptEnv)
    (hfresh : acc.desc = -1 ∨ (InRange acc.desc ∧
      (∀ sock ∈ s.socketList, sock.control ≠ acc.desc) ∧
      ∀ sock ∈ s.socketList, sock.ptr ≠ acc.ptr)) :
    Lockstep ls (Accept acc s).server := by
  rcases Accept_server_cases acc s with h1 | ⟨h2, ⟨f, hf, h1⟩ | ⟨hout, _⟩⟩
  · rw [h1]; exact h
  · rcases hfresh with h3 | ⟨_, hd, hp⟩
    · exact absurd h3 h2
    · rw [h1]
      constructor
      · intro sock hs
        simp only [List.mem_append, List.mem_singleton] at hs
        rcases hs with hs | hs
        · exact (mem_FD_SET hf _).mpr (Or.inr (h.live_in_fSet sock hs))
        · exact (mem_FD_SET hf _).mpr (Or.inl (by rw [hs]))
      · intro d hd2
        rcases (mem_FD_SET hf d).mp hd2 with h3 | h3
        · exact Or.inr ⟨⟨acc.ptr, acc.desc⟩, by simp, h3.symm⟩
        · rcases h.fSet_known d h3 with h4 | ⟨sock, hs, hc⟩
          · exact Or.inl h4
          · exact Or.inr ⟨sock, by simp [hs], hc⟩
      · simp only [List.map_append, List.map_cons, List.map_nil]
        refine List.Nodup.append h.desc_nodup (List.nodup_singleton _) ?_
        simp only [List.disjoint_singleton, List.mem_map, not_exists, not_and]
        exact fun sock hs => hd sock hs
      · simp only [List.map_append, List.map_cons, List.map_nil]
        refine List.Nodup.append h.ptr_nodup (List.nodup_singleton _) ?_
        simp only [List.disjoint_singleton, List.mem_map, not_exists, not_and]
        exact fun sock hs => hp sock hs
  · rcases hfresh with h3 | ⟨hin, _, _⟩
    · exact absurd h3 h2
    · exact absurd hin hout

theorem lockstep_close {ls : List Int} {s : Server} (h : Lockstep ls s) (sock : Socket)
    (hmem : sock ∈ s.socketList) : Lockstep ls (CloseSocket s sock).server := by
  have hctl : ∀ x ∈ s.socketList, x.control = sock.control → x = sock :=
    fun x hx he => List.inj_on_of_nodup_map h.desc_nodup hx hmem he
  have hptr : ∀ x ∈ s.socketList, x.ptr = sock.ptr → x = sock :=
    fun x hx he => List.inj_on_of_nodup_map h.ptr_nodup hx hmem he
  obtain ⟨f, hf, hc⟩ :=
    CloseSocket_of_inRange s sock (FD_ISSET_inRange (h.live_in_fSet sock hmem))
  rw [hc]
  unfold listRemove
  constructor
  · intro x hx
    simp only [Outcome.server, List.mem_filter, bne_iff_ne, ne_eq] at hx
    have hne : x.control ≠ sock.control := fun he => hx.2 (by rw [hctl x hx.1 he])
    exact (mem_FD_CLR hf _).mpr ⟨hne, h.live_in_fSet x hx.1⟩
  · intro d hd
    obtain ⟨hd2, hd3⟩ := (mem_FD_CLR hf d).mp hd
    rcases h.fSet_known d hd3 with h3 | ⟨x, hx, hxc⟩
    · exact Or.inl h3
    · refine Or.inr ⟨x, ?_, hxc⟩
      simp only [Outcome.server, List.mem_filter, bne_iff_ne, ne_eq]
      refine ⟨hx, fun he => hd2 ?_⟩
      rw [← hxc, hptr x hx he]
  · exact h.desc_nodup.sublist (List.Sublist.map _ (List.filter_sublist _))
  · exact h.ptr_nodup.sublist (List.Sublist.map _ (List.filter_sublist _))

/-- Every state of `Reach` is in lockstep. -/
theorem reach_lockstep {ls : List Int} {s : Server} (h : Reach ls s) : Lockstep ls s := by
  induction h with
  | init now => exact lockstep_new now
  | connect env _ hr ih => exact lockstep_connect ih env hr
  | @poll ls s sel acc Read _ hfresh ih =>
    have hsel : Lockstep ls (selectReady sel s) := lockstep_of_eq ih rfl rfl
    have hacc : Lockstep ls (Accept acc (selectReady sel s)).server := by
      refine lockstep_accept hsel acc ?_
      rcases hfresh with h1 | ⟨h0, h1, h2⟩
      · exact Or.inl h1
      · exact Or.inr ⟨h0, h1.2, h2⟩
    rcases PollSockets_server sel acc Read s with h1 | h1 | ⟨sock, hm, h1⟩
    · rw [h1]; exact lockstep_of_eq ih rfl rfl
    · rw [h1]; exact hacc
    · rw [h1]; exact lockstep_close hacc sock hm
  | @flush ls s Flush _ ih =>
    rcases FlushSockets_server Flush s with h1 | ⟨sock, hm, h1⟩
    · rw [h1]; exact ih
    · rw [h1]; exact lockstep_close ih sock hm
  | @sleep ls s pps newTime afterTime _ ih =>
    refine lockstep_of_eq ih ?_ ?_ <;> (unfold Sleep; split <;> rfl)

/-- With the listener descriptor and the result of `accept()` in
`[0, FD_SETSIZE)`, `Accept` returns; it changes neither `rSet` nor the
connections already in `socketList`, and adds at most the new one. -/
theorem Accept_returns (acc : AcceptEnv) (s : Server) (hc : InRange s.control)
    (hd : acc.desc = -1 ∨ InRange acc.desc) :
    ∃ s3, Accept acc s = .returned () s3 [] ∧ s3.rSet = s.rSet ∧
      (∀ x ∈ s.socketList, x ∈ s3.socketList) ∧
      (∀ x ∈ s3.socketList, x ∈ s.socketList ∨ (x = ⟨acc.ptr, acc.desc⟩ ∧ InRange acc.desc)) := by
  obtain ⟨b, hb⟩ := FD_ISSET_of_inRange s.rSet hc
  cases b with
  | false =>
    exact ⟨s, Accept_when_refused acc s hc (Or.inl hb), rfl, fun x hx => hx,
      fun x hx => Or.inl hx⟩
  | true =>
    by_cases h2 : acc.desc = -1
    · exact ⟨s, Accept_when_refused acc s hc (Or.inr h2), rfl, fun x hx => hx,
        fun x hx => Or.inl hx⟩
    · have hin : InRange acc.desc := hd.resolve_left h2
      obtain ⟨f, _, h3⟩ := Accept_when_admitted acc s hb h2 hin
      refine ⟨_, h3, rfl, fun x hx => List.mem_append_left _ hx, fun x hx => ?_⟩
      rcases List.mem_append.mp hx with h | h
      · exact Or.inl h
      · exact Or.inr ⟨List.mem_singleton.mp h, hin⟩

/-- Evicting the same connection again, right after its eviction, changes
nothing. -/
theorem CloseSocket_twice (s : Server) (sock : Socket) :
    (CloseSocket (CloseSocket s sock).server sock).server = (CloseSocket s sock).server := by
  unfold CloseSocket listRemove
  cases hd : fdIndex sock.control with
  | none => simp [FD_CLR, hd, Outcome.server, List.filter_filter]
  | some i =>
    simp only [FD_CLR, hd, Option.map_some', Outcome.server, List.filter_filter, Bool.and_self,
      Server.mk.injEq, true_and, and_true]
    funext x
    split <;> rfl

/-! ## Theorems about `Sleep` -/

/-- C4, as stated, fails: with `lastSleep = (0 s, 0 us)`, the clock at
`(2147483648 s, 999999 us)` and `pps = 10`, both field differences fit in
`int` (the seconds differ by exactly `INT_MIN`), but the borrow `secs -= 1`
leaves the range of `int`: `Sleep` ends with `secs = 2147483647`,
`usecs = 100001`, which is not `interval - elapsed`, and sleeps although
`interval - elapsed` is negative. -/
theorem Sleep_duration_counterexample :
    (0 : Int) < 10 ∧
    (0 ≤ (0 : Int) ∧ (0 : Int) < 1000000) ∧
    (0 ≤ (999999 : Int) ∧ (999999 : Int) < 1000000) ∧
    fitsInt ((0 : Int) - 2147483648) ∧ fitsInt ((0 : Int) - 999999) ∧
    sleepAmount 10 ⟨0, 0⟩ ⟨2147483648, 999999⟩ = (100001, 2147483647) ∧
    (Sleep 10 ⟨2147483648, 999999⟩ ⟨2147483648, 999999⟩ (Server.new ⟨0, 0⟩)).2
      = some ⟨2147483647, 100001⟩ ∧
    (1000000 : Int) / 10 - elapsed ⟨0, 0⟩ ⟨2147483648, 999999⟩ < 0 ∧
    ¬ SleepsForRemainder 10 ⟨2147483648, 999999⟩ ⟨2147483648, 999999⟩ (Server.new ⟨0, 0⟩) := by
  have hamt : sleepAmount 10 ⟨0, 0⟩ ⟨2147483648, 999999⟩ = (100001, 2147483647) := by
    unfold sleepAmount
    norm_num [wrapInt, Int.tdiv]
    rw [borrowLoop_once _ (by norm_num) (by norm_num)]
    norm_num
    rw [carryLoop_of_lt _ (by norm_num)]
    rfl
  refine ⟨by norm_num, by norm_num, by norm_num, by unfold fitsInt INT_MIN INT_MAX; norm_num,
    by unfold fitsInt INT_MIN INT_MAX; norm_num, hamt, ?_, by norm_num [elapsed], ?_⟩
  · simp [Sleep, Server.new, hamt]
  · unfold SleepsForRemainder
    simp only [Server.new, hamt, elapsed]
    norm_num

/-- C4, amended: for `pps > 0`, `tv_usec` of `lastSleep` and of the clock
reading in `[0, 1000000)`, field differences that fit in `int`, and whole
seconds of `interval - elapsed` that fit in `int` as well, `Sleep` computes
`(secs, usecs)` with `usecs` in `[0, 1000000)` and
`secs * 1000000 + usecs = 1000000 / pps - elapsed`; it sleeps for exactly that
amount when it is positive and not at all otherwise. -/
theorem Sleep_duration (pps : Int) (newTime afterTime : Timeval) (s : Server)
    (hpps : 0 < pps)
    (hl : 0 ≤ s.lastSleep.tv_usec ∧ s.lastSleep.tv_usec < 1000000)
    (hn : 0 ≤ newTime.tv_usec ∧ newTime.tv_usec < 1000000)
    (_hsec : fitsInt (s.lastSleep.tv_sec - newTime.tv_sec))
    (_husec : fitsInt (s.lastSleep.tv_usec - newTime.tv_usec))
    (hnorm : fitsInt ((1000000 / pps - elapsed s.lastSleep newTime) / 1000000)) :
    SleepsForRemainder pps newTime afterTime s := by
  have hamt := sleepAmount_eq pps s.lastSleep newTime hpps hl hn hnorm
  unfold SleepsForRemainder Sleep
  simp only [hamt, not_le.mpr hpps, if_false]
  generalize (1000000 : Int) / pps - elapsed s.lastSleep newTime = r
  refine ⟨⟨by omega, by omega⟩, by omega, ?_⟩
  by_cases hr : 0 < r
  · have : (r / 1000000 > 0 || (r / 1000000 == 0 && r % 1000000 > 0)) = true := by
      simp only [Bool.or_eq_true, Bool.and_eq_true, decide_eq_true_eq, beq_iff_eq]
      omega
    simp [this, hr]
  · have : (r / 1000000 > 0 || (r / 1000000 == 0 && r % 1000000 > 0)) = false := by
      rw [Bool.eq_false_iff]
      simp only [ne_eq, Bool.or_eq_true, Bool.and_eq_true, decide_eq_true_eq, beq_iff_eq]
      omega
    simp [this, hr]

/-- Witness for `Sleep_duration`: `Sleep(10)` called 30 ms after the last
sleep. -/
theorem Sleep_duration_witness :
    SleepsForRemainder 10 ⟨5, 30000⟩ ⟨5, 100000⟩ (Server.new ⟨5, 0⟩) :=
  Sleep_duration 10 ⟨5, 30000⟩ ⟨5, 100000⟩ (Server.new ⟨5, 0⟩) (by decide)
    (by decide) (by decide) (by decide) (by decide)
    (by unfold fitsInt INT_MIN INT_MAX elapsed Server.new; norm_num)

/-- C8: `Sleep(pps)` with `pps <= 0` requests no sleep and leaves the server,
hence `lastSleep`, as it was; `Sleep(pps)` with `pps > 0` changes nothing but
`lastSleep`, which becomes the clock reading taken after the sleep, whether or
not a sleep was requested. -/
theorem Sleep_timestamp (pps : Int) (newTime afterTime : Timeval) (s : Server) :
    (pps ≤ 0 → Sleep pps newTime afterTime s = (s, none)) ∧
    (0 < pps → (Sleep pps newTime afterTime s).1 = { s with lastSleep := afterTime }) := by
  constructor
  · intro h
    simp [Sleep, h]
  · intro h
    simp [Sleep, not_le.mpr h]

/-- Witness for `Sleep_timestamp`: rate `0` leaves the timestamp, rate `10`
with the interval long exceeded sets it without sleeping. -/
theorem Sleep_timestamp_witness :
    (Sleep 0 ⟨9, 0⟩ ⟨9, 5⟩ (Server.new ⟨1, 0⟩)).1.lastSleep = ⟨1, 0⟩ ∧
    (Sleep 10 ⟨9, 0⟩ ⟨9, 5⟩ (Server.new ⟨1, 0⟩)).1.lastSleep = ⟨9, 5⟩ :=
  ⟨by rw [(Sleep_timestamp 0 ⟨9, 0⟩ ⟨9, 5⟩ (Server.new ⟨1, 0⟩)).1 (by decide)]; rfl,
   by rw [(Sleep_timestamp 10 ⟨9, 0⟩ ⟨9, 5⟩ (Server.new ⟨1, 0⟩)).2 (by decide)]⟩


/-! ## Theorems about the descriptor sets and the connection list -/

/-- C1, as stated, fails: after a successful `Connect` on a new server (a
state the operations reach) the listener descriptor 3 is a member of `fSet`,
while `socketList` is empty, so a member of `fSet` is the descriptor of no
connection. -/
theorem lockstep_counterexample :
    Reach [3] listening ∧
    (Connect ⟨3, 0, 0, 0⟩ (Server.new ⟨0, 0⟩)).value = some true ∧
    FD_ISSET 3 listening.fSet = some true ∧ listening.socketList = [] ∧
    ¬ (∀ d, FD_ISSET d listening.fSet = some true →
        ∃ sock ∈ listening.socketList, sock.control = d) := by
  refine ⟨Reach.connect ⟨3, 0, 0, 0⟩ (Reach.init ⟨0, 0⟩) (Or.inr (by decide)),
    by decide, by decide, by decide, ?_⟩
  intro h
  obtain ⟨sock, hs, _⟩ := h 3 (by decide)
  have : listening.socketList = [] := by decide
  rw [this] at hs
  cases hs

/-- C1, amended: in every state reached from a new `Server` by `Connect`,
`PollSockets`, `FlushSockets` and `Sleep` calls, with `socket()` and
`accept()` returning descriptors of `[0, FD_SETSIZE)` and `accept()`
returning descriptors that are in use by no listener and no live connection,
the descriptor of every connection of `socketList` is a member of `fSet`, and
every member of `fSet` is the descriptor of a connection of `socketList` or a
listener descriptor that a `Connect` call has registered. -/
theorem lockstep_invariant (ls : List Int) (s : Server) (h : Reach ls s) :
    (∀ sock ∈ s.socketList, FD_ISSET sock.control s.fSet = some true) ∧
    (∀ d, FD_ISSET d s.fSet = some true →
      d ∈ ls ∨ ∃ sock ∈ s.socketList, sock.control = d) :=
  ⟨(reach_lockstep h).live_in_fSet, (reach_lockstep h).fSet_known⟩

/-- Witness for `lockstep_invariant`: the listening server that has accepted
one connection. -/
theorem lockstep_invariant_witness :
    Reach [3] oneClient ∧
    (∀ sock ∈ oneClient.socketList, FD_ISSET sock.control oneClient.fSet = some true) ∧
    (∀ d, FD_ISSET d oneClient.fSet = some true →
      d ∈ [3] ∨ ∃ sock ∈ oneClient.socketList, sock.control = d) :=
  have hreach : Reach [3] oneClient :=
    Reach.poll ⟨1, fun _ => true⟩ ⟨4, 100⟩ (fun _ => true)
      (Reach.connect ⟨3, 0, 0, 0⟩ (Reach.init ⟨0, 0⟩) (Or.inr (by decide)))
      (Or.inr ⟨by decide, ⟨by decide, by decide⟩, by decide⟩)
  ⟨hreach, lockstep_invariant [3] oneClient hreach⟩

/-- C7, as stated, fails: with the listener descriptor 3 in `rSet`, `accept()`
returns 1024 = `FD_SETSIZE`.  `Accept` appends the connection to `socketList`,
but `FD_SET` has no bit for the descriptor: the descriptor is not added to
`fSet`, which is as it was, and the call does not return. -/
theorem Accept_out_of_range_counterexample :
    FD_ISSET listening.control (selectReady ⟨1, fun _ => true⟩ listening).rSet = some true ∧
    (Accept ⟨1024, 100⟩ (selectReady ⟨1, fun _ => true⟩ listening)).value = none ∧
    (Accept ⟨1024, 100⟩ (selectReady ⟨1, fun _ => true⟩ listening)).server.socketList
      = [⟨100, 1024⟩] ∧
    (Accept ⟨1024, 100⟩ (selectReady ⟨1, fun _ => true⟩ listening)).server.fSet
      = listening.fSet ∧
    FD_ISSET 1024 (Accept ⟨1024, 100⟩ (selectReady ⟨1, fun _ => true⟩ listening)).server.fSet
      ≠ some true :=
  ⟨by decide, by decide, by decide, rfl, by decide⟩

/-- C7, amended: when the listener descriptor is in `[0, FD_SETSIZE)` and
`accept()` fails or returns a descriptor of `[0, FD_SETSIZE)`, `Accept`
returns and lengthens `socketList` by at most one; it leaves the server as it
was when the listener descriptor is not a member of `rSet` or `accept()`
fails; otherwise it appends the new connection at the end of `socketList` and
adds its descriptor to `fSet`.  A `PollSockets` call lengthens `socketList`
by at most one as well. -/
theorem Accept_admits_at_most_one (acc : AcceptEnv) (s : Server)
    (hc : InRange s.control) (hd : acc.desc = -1 ∨ InRange acc.desc) :
    (Accept acc s).value = some () ∧
    (Accept acc s).server.socketList.length ≤ s.socketList.length + 1 ∧
    (FD_ISSET s.control s.rSet = some false ∨ acc.desc = -1 → (Accept acc s).server = s) ∧
    (FD_ISSET s.control s.rSet = some true → acc.desc ≠ -1 →
      (Accept acc s).server.socketList = s.socketList ++ [⟨acc.ptr, acc.desc⟩] ∧
      FD_SET acc.desc s.fSet = some (Accept acc s).server.fSet ∧
      FD_ISSET acc.desc (Accept acc s).server.fSet = some true ∧
      ∀ d, FD_ISSET d (Accept acc s).server.fSet = some true ↔
        d = acc.desc ∨ FD_ISSET d s.fSet = some true) ∧
    (∀ (sel : SelectEnv) (Read : Socket → Bool),
      (PollSockets sel acc Read s).server.socketList.length ≤ s.socketList.length + 1) := by
  refine ⟨?_, Accept_length acc s, ?_, ?_, ?_⟩
  · obtain ⟨s3, h3, _⟩ := Accept_returns acc s hc hd
    rw [h3]; rfl
  · intro h
    rw [Accept_when_refused acc s hc h]; rfl
  · intro h1 h2
    obtain ⟨f, hf, h3⟩ := Accept_when_admitted acc s h1 h2 (hd.resolve_left h2)
    rw [h3]
    exact ⟨rfl, hf, (mem_FD_SET hf acc.desc).mpr (Or.inl rfl), fun d => mem_FD_SET hf d⟩
  · intro sel Read
    have h3 := Accept_length acc (selectReady sel s)
    have h4 : (selectReady sel s).socketList = s.socketList := rfl
    rw [h4] at h3
    rcases PollSockets_server sel acc Read s with h1 | h1 | ⟨sock, _, h1⟩
    · rw [h1]; simp
    · rw [h1]; exact h3
    · rw [h1, CloseSocket_socketList]
      refine le_trans ?_ h3
      unfold listRemove
      exact List.length_filter_le _ _

/-- Witness for `Accept_admits_at_most_one`: with the listener descriptor 3
in `rSet`, a failing `accept()` changes nothing and a successful one appends
the connection on descriptor 4 and puts 4 into `fSet`. -/
theorem Accept_admits_at_most_one_witness :
    (Accept ⟨-1, 0⟩ (selectReady ⟨1, fun _ => true⟩ listening)).server
      = selectReady ⟨1, fun _ => true⟩ listening ∧
    (Accept ⟨4, 100⟩ (selectReady ⟨1, fun _ => true⟩ listening)).server.socketList
      = listening.socketList ++ [⟨100, 4⟩] ∧
    FD_ISSET 4 (Accept ⟨4, 100⟩ (selectReady ⟨1, fun _ => true⟩ listening)).server.fSet
      = some true :=
  ⟨(Accept_admits_at_most_one ⟨-1, 0⟩ (selectReady ⟨1, fun _ => true⟩ listening)
      (by decide) (Or.inl rfl)).2.2.1 (Or.inr rfl),
   ((Accept_admits_at_most_one ⟨4, 100⟩ (selectReady ⟨1, fun _ => true⟩ listening)
      (by decide) (Or.inr (by decide))).2.2.2.1 (by decide) (by decide)).1,
   ((Accept_admits_at_most_one ⟨4, 100⟩ (selectReady ⟨1, fun _ => true⟩ listening)
      (by decide) (Or.inr (by decide))).2.2.2.1 (by decide) (by decide)).2.2.1⟩

/-- C10, as stated, fails: `Connect` succeeds on a new server whose `socket()`
returns 3; a further `Connect` call whose `socket()` returns 4 succeeds as
well, changes `control` from 3 to 4, and leaves both listener descriptors in
`fSet`. -/
theorem listener_rebind_counterexample :
    (Connect ⟨3, 0, 0, 0⟩ (Server.new ⟨0, 0⟩)).value = some true ∧
    listening.control = 3 ∧
    (Connect ⟨4, 0, 0, 0⟩ listening).value = some true ∧
    (Connect ⟨4, 0, 0, 0⟩ listening).server.control = 4 ∧
    (Connect ⟨4, 0, 0, 0⟩ listening).server.control ≠ listening.control ∧
    FD_ISSET 3 (Connect ⟨4, 0, 0, 0⟩ listening).server.fSet = some true ∧
    FD_ISSET 4 (Connect ⟨4, 0, 0, 0⟩ listening).server.fSet = some true := by
  decide

/-- C10, amended: `PollSockets`, `FlushSockets` and `Sleep` never change
`control`.  A `Connect` call sets `control` to the descriptor its `socket()`
call returns and removes no descriptor from `fSet`; when `socket()` or
`setsockopt()` fails it leaves `fSet` as it was; when both succeed and the
descriptor is in `[0, FD_SETSIZE)` it returns, telling whether `bind` and
`listen` succeeded, and the members of `fSet` are then the new descriptor and
the members before, so an earlier listener descriptor stays in `fSet` beside
the new one. -/
theorem control_changed_only_by_Connect (s : Server) :
    (∀ (sel : SelectEnv) (acc : AcceptEnv) (Read : Socket → Bool),
      (PollSockets sel acc Read s).server.control = s.control) ∧
    (∀ Flush : Socket → Bool, (FlushSockets Flush s).server.control = s.control) ∧
    (∀ (pps : Int) (newTime afterTime : Timeval),
      (Sleep pps newTime afterTime s).1.control = s.control) ∧
    (∀ env : ConnectEnv,
      (Connect env s).server.control = env.socketRes ∧
      (∀ d, FD_ISSET d s.fSet = some true →
        FD_ISSET d (Connect env s).server.fSet = some true) ∧
      (env.socketRes = -1 ∨ env.setsockoptRes = -1 →
        (Connect env s).value = some false ∧ (Connect env s).server.fSet = s.fSet) ∧
      (env.socketRes ≠ -1 → env.setsockoptRes ≠ -1 → InRange env.socketRes →
        (Connect env s).value = some (env.bindRes != -1 && env.listenRes != -1) ∧
        FD_ISSET env.socketRes (Connect env s).server.fSet = some true ∧
        ∀ d, FD_ISSET d (Connect env s).server.fSet = some true ↔
          d = env.socketRes ∨ FD_ISSET d s.fSet = some true)) := by
  refine ⟨?_, ?_, ?_, ?_⟩
  · intro sel acc Read
    rcases PollSockets_server sel acc Read s with h1 | h1 | ⟨sock, _, h1⟩
    · rw [h1]
    · rw [h1, Accept_control]; rfl
    · rw [h1, CloseSocket_control, Accept_control]; rfl
  · intro Flush
    rcases FlushSockets_server Flush s with h1 | ⟨sock, _, h1⟩
    · rw [h1]
    · rw [h1, CloseSocket_control]
  · intro pps newTime afterTime
    unfold Sleep
    split <;> rfl
  · intro env
    by_cases h1 : env.socketRes = -1 ∨ env.setsockoptRes = -1
    · have hc := Connect_when_failed env s h1
      rw [hc]
      exact ⟨rfl, fun d hd => hd, fun _ => ⟨rfl, rfl⟩,
        fun h2 h3 _ => absurd h1 (by simp [h2, h3])⟩
    · simp only [not_or] at h1
      by_cases hr : InRange env.socketRes
      · obtain ⟨f, hf, hc⟩ := Connect_when_registered env s h1.1 h1.2 hr
        rw [hc]
        refine ⟨rfl, fun d hd => (mem_FD_SET hf d).mpr (Or.inr hd), ?_, ?_⟩
        · rintro (h2 | h2)
          · exact absurd h2 h1.1
          · exact absurd h2 h1.2
        · intro _ _ _
          exact ⟨rfl, (mem_FD_SET hf _).mpr (Or.inl rfl), fun d => mem_FD_SET hf d⟩
      · rw [Connect_when_out_of_range env s h1.1 h1.2 hr]
        refine ⟨rfl, fun d hd => hd, ?_, fun _ _ h4 => absurd h4 hr⟩
        rintro (h2 | h2)
        · exact absurd h2 h1.1
        · exact absurd h2 h1.2

/-- Witness for `control_changed_only_by_Connect`: a second `Connect` on the
listening server, with `socket()` returning 4, has descriptor 4 in `fSet`
beside descriptor 3. -/
theorem control_changed_only_by_Connect_witness :
    FD_ISSET 4 (Connect ⟨4, 0, 0, 0⟩ listening).server.fSet = some true ∧
    FD_ISSET 3 (Connect ⟨4, 0, 0, 0⟩ listening).server.fSet = some true ∧
    (Connect ⟨4, -1, 0, 0⟩ listening).server.fSet = listening.fSet :=
  ⟨(((control_changed_only_by_Connect listening).2.2.2 ⟨4, 0, 0, 0⟩).2.2.2
      (by decide) (by decide) (by decide)).2.1,
   ((control_changed_only_by_Connect listening).2.2.2 ⟨4, 0, 0, 0⟩).2.1 3 (by decide),
   (((control_changed_only_by_Connect listening).2.2.2 ⟨4, -1, 0, 0⟩).2.2.1
      (Or.inr rfl)).2⟩

/-! ## Evictions inside the loops -/

/-- C3 at a failing input: two clients are connected (descriptors 4 and 5),
`select` reports descriptor 4 readable and `Read` fails on that connection.
`PollSockets` evicts it and then advances the iterator of the erased node: it
does not return, and the state the claim describes is not reached by a
defined execution. -/
theorem PollSockets_read_failure_undefined :
    twoClients.socketList = [⟨100, 4⟩, ⟨200, 5⟩] ∧
    (PollSockets ⟨1, fun d => d == 4⟩ ⟨-1, 0⟩ (fun x => x.ptr != 100) twoClients).value
      = none ∧
    (PollSockets ⟨1, fun d => d == 4⟩ ⟨-1, 0⟩ (fun x => x.ptr != 100) twoClients).calls
      = [⟨100, 4⟩] := by
  decide

/-- C5 at a failing input: one client is connected (descriptor 4), `select`
succeeds and reports it readable, and its `Read` fails.  `PollSockets` does
not return `true`: it does not return. -/
theorem PollSockets_all_reads_fail_undefined :
    oneClient.socketList = [⟨100, 4⟩] ∧
    (PollSockets ⟨1, fun d => d == 4⟩ ⟨-1, 0⟩ (fun _ => false) oneClient).value = none ∧
    (PollSockets ⟨1, fun d => d == 4⟩ ⟨-1, 0⟩ (fun _ => false) oneClient).value
      ≠ some true := by
  decide

/-- C6 at a failing input: two clients are connected and `Flush` fails on the
first.  `FlushSockets` evicts it and then advances the iterator of the erased
node: it does not return, and the second connection has not been flushed. -/
theorem FlushSockets_eviction_undefined :
    twoClients.socketList = [⟨100, 4⟩, ⟨200, 5⟩] ∧
    (FlushSockets (fun x => x.ptr != 100) twoClients).value = none ∧
    (FlushSockets (fun x => x.ptr != 100) twoClients).calls = [⟨100, 4⟩] ∧
    (⟨200, 5⟩ : Socket) ∉ (FlushSockets (fun x => x.ptr != 100) twoClients).calls := by
  decide

/-- C9 at a failing input: two clients are connected, both readable, and
`Read` fails on the second.  `PollSockets` reads both, evicts the second and
does not return, so the tick has no defined continuation in which
`FlushSockets` would find the connection gone. -/
theorem PollSockets_tick_eviction_undefined :
    twoClients.socketList = [⟨100, 4⟩, ⟨200, 5⟩] ∧
    (PollSockets ⟨2, fun d => d == 4 || d == 5⟩ ⟨-1, 0⟩ (fun x => x.ptr != 200)
      twoClients).value = none ∧
    (PollSockets ⟨2, fun d => d == 4 || d == 5⟩ ⟨-1, 0⟩ (fun x => x.ptr != 200)
      twoClients).calls = [⟨100, 4⟩, ⟨200, 5⟩] ∧
    (PollSockets ⟨2, fun d => d == 4 || d == 5⟩ ⟨-1, 0⟩ (fun x => x.ptr != 200)
      twoClients).server.socketList = [⟨100, 4⟩] := by
  decide

end SocketMud
